import Mathlib

/-!
Verification of `lemur/plugins/lemur_acme/acme_handlers.py`.

Shallow embedding: the handler methods become Lean functions.  External
collaborators (the ACME client library, DNS provider plugins, the flask
config, the clock) are abstracted into an `AcmeEnv` record of pure
functions; calls to them are recorded as `Event`s so that theorems can
talk about which network calls were made and in which order.  Python
exceptions become `Except AcmeErr`; Python falsiness of optional strings
is modelled by `truthyOpt`.
-/

set_option autoImplicit false

/-- Python truthiness of an optional string (`None` and `""` are falsy). -/
def truthyOpt : Option String → Bool
  | some v => !(v == "")
  | none => false

/-- `d.get(k)` on a parsed JSON object, modelled as an association list
(JSON objects have unique keys, so the first binding wins). -/
def dictGet (d : List (String × String)) (k : String) : Option String :=
  (d.find? (fun kv => kv.1 == k)).map (fun kv => kv.2)

/-- `d and d.get(k)` as used for provider options: yields the value only
when it is present and truthy (an empty dict is falsy, so it yields
nothing, which coincides with the lookup failing). -/
def truthyGet (d : List (String × String)) (k : String) : Option String :=
  match dictGet d k with
  | some v => if v == "" then none else some v
  | none => none

/-- `s.startswith(pre)` (`String.startsWith`, written on the character
lists so that proofs can evaluate it). -/
def pyStartsWith (s pre : String) : Bool := pre.data.isPrefixOf s.data

/-- `s[n:]` character dropping (`String.drop` on the character list). -/
def pyDrop (s : String) (n : Nat) : String := ⟨s.data.drop n⟩

/-- `s.endswith(suf)` (`String.endsWith` on the character lists). -/
def pyEndsWith (s suf : String) : Bool := suf.data.isSuffixOf s.data

/-- `s.lstrip()` (`String.trimLeft` on the character list). -/
def pyLstrip (s : String) : String := ⟨s.data.dropWhile Char.isWhitespace⟩

/-- `AcmeHandler.strip_wildcard`: removes a leading `*.` and reports
whether it was removed. -/
def strip_wildcard (host : String) : String × Bool :=
  if pyStartsWith host "*." then (pyDrop host 2, true) else (host, false)

/-- `AcmeHandler.maybe_add_extension`: appends the
`acme_challenge_extension` value from the given provider option dict,
when the dict and the value are truthy. -/
def maybe_add_extension (host : String) (dns_provider_options : List (String × String)) : String :=
  match truthyGet dns_provider_options "acme_challenge_extension" with
  | some ext => host ++ ext
  | none => host

/-- Challenge type tag; `DNS01` models `isinstance(combo.chall, challenges.DNS01)`. -/
inductive ChallKind
  | DNS01
  | HTTP01
  | TLSALPN01
  deriving DecidableEq, Repr

/-- An ACME challenge object (the `combo` of the source).  The token
distinguishes challenge objects; the validation functions the ACME
library attaches to a challenge live in `AcmeEnv`. -/
structure Challenge where
  kind : ChallKind
  token : String
  deriving DecidableEq, Repr

/-- The body of an ACME authorization object. -/
structure AuthzBody where
  identifier_value : String
  wildcard : Bool
  challenges : List Challenge
  deriving DecidableEq, Repr

/-- An ACME authorization object. -/
structure Authz where
  body : AuthzBody
  deriving DecidableEq, Repr

/-- A configured DNS provider row: `credentials` and `options` are the
two parsed JSON dicts carried by the row, `domains` the suffix list. -/
structure DnsProvider where
  provider_type : String
  credentials : List (String × String)
  options : List (String × String)
  domains : List String
  deriving DecidableEq, Repr

/-- One name/value option pair of an authority configuration
(the value may be JSON null, modelled as `none`). -/
structure AuthorityOption where
  name : String
  value : Option String
  deriving DecidableEq, Repr

/-- An authority row.  `options` is its JSON options string: `none`
models a falsy (`None`/empty) string, `some l` the parsed list. -/
structure Authority where
  id : Nat
  options : Option (List AuthorityOption)
  deriving DecidableEq, Repr

/-- The process-wide flask configuration values the handlers read. -/
structure AppConfig where
  ACME_EMAIL : Option String
  ACME_TEL : Option String
  ACME_DIRECTORY_URL : Option String
  ACME_PRIVATE_KEY : Option String
  ACME_REGR : Option String
  IDENTRUST_CROSS_SIGNED_LE_ICA : Option String
  deriving DecidableEq, Repr

/-- The `AuthorizationRecord` class of the source. -/
structure AuthorizationRecord where
  host : String
  authz : List Authz
  dns_challenge : List Challenge
  change_id : List String
  deriving DecidableEq, Repr

/-- An ACME order resource; `fullchain_pem = none` models a falsy
(absent or empty) chain. -/
structure AcmeOrder where
  uri : String
  fullchain_pem : Option String
  deriving DecidableEq, Repr

/-- Python exceptions raised by the handlers. -/
inductive AcmeErr
  | invalidAuthority
  | unknownProvider (t : String)
  | noChallenges
  | noDnsProviders (domain : String)
  | waitFailed (change_id : String)
  | failedVerification
  | deleteFailed
  | typeErr
  | keyErr (k : String)
  | nameErr
  | indexErr
  | acmeProtocolError
  | timeoutErr
  | validationErr
  | loadCertError
  deriving DecidableEq, Repr

/-- Outward calls made by the handlers, recorded in order. -/
inductive Event
  | createTxt (name value : String) (account : Option String)
  | waitDns (change_id : String) (account : Option String)
  | deleteTxt (change_ids : List String) (account : Option String) (name value : String)
  | answerChallenge (ch : Challenge) (response : String)
  | generateKey
  | newAccountCall (email : Option String)
  | updateOptions (opts : List AuthorityOption)
  | sentryReport (order_uri : String)
  | pollAuthz (a : Authz)
  deriving DecidableEq, Repr

/-- Behaviour of the external collaborators during one issuance.  The
ACME session key is fixed for the whole issuance, so the functions the
source applies to `acme_client.client.net.key` are closed over it here. -/
structure AcmeEnv where
  create_change_id : String → String → Option String → String
  wait_ok : String → Option String → Bool
  simple_verify : Challenge → String → Bool
  response_of : Challenge → String
  delete_ok : List String → Option String → String → String → Bool
  validation_domain_name : Challenge → String → String
  validation : Challenge → String
  reencode_leaf : String → String
  now_before_ica_expiry : Bool
  generated_key : String
  new_account_result : Except AcmeErr String

instance exceptAcmeDecEq {A : Type} [DecidableEq A] : DecidableEq (Except AcmeErr A)
  | .ok a, .ok b =>
    if h : a = b then .isTrue (by rw [h]) else .isFalse (by intro hh; cases hh; exact h rfl)
  | .ok _, .error _ => .isFalse (by intro hh; cases hh)
  | .error _, .ok _ => .isFalse (by intro hh; cases hh)
  | .error a, .error b =>
    if h : a = b then .isTrue (by rw [h]) else .isFalse (by intro hh; cases hh; exact h rfl)

/-- `AcmeHandler.reuse_account`. -/
def reuse_account (cfg : AppConfig) (authority : Authority) : Except AcmeErr Bool :=
  match authority.options with
  | none => .error .invalidAuthority
  | some opts =>
    let existing_key := opts.any (fun o => o.name == "acme_private_key" && truthyOpt o.value)
    let existing_regr := opts.any (fun o => o.name == "acme_regr" && truthyOpt o.value)
    let existing_key2 := existing_key || truthyOpt cfg.ACME_PRIVATE_KEY
    let existing_regr2 := existing_regr || truthyOpt cfg.ACME_REGR
    .ok (existing_key2 && existing_regr2)

/-- `options[option["name"]] = option.get("value")` builds a dict with the
last occurrence of a name winning; `options.get(k, default)` then returns
the stored value (even when falsy) if the name is present, else the
default.  Modelled by searching the reversed list. -/
def pyDictGet (opts : List AuthorityOption) (k : String) (default : Option String) : Option String :=
  match opts.reverse.find? (fun o => o.name == k) with
  | some o => o.value
  | none => default

/-- `options[k]` bracket access on the same dict: `none` models the
`KeyError` case (name absent). -/
def pyDictFind (opts : List AuthorityOption) (k : String) : Option (Option String) :=
  (opts.reverse.find? (fun o => o.name == k)).map (fun o => o.value)

/-- The ACME client handle produced by `setup_acme_client`. -/
structure AcmeClient where
  key : String
  account : Option String
  directory_url : Option String
  deriving DecidableEq, Repr

/-- One attempt of `AcmeHandler.setup_acme_client` (the body under the
`@retry` decorator).  Returns the `(client, registration)` pair and the
trace of external calls of that attempt. -/
def setup_acme_client_body (cfg : AppConfig) (env : AcmeEnv) (authority : Authority) :
    Except AcmeErr (AcmeClient × Option String) × List Event :=
  match authority.options with
  | none => (.error .invalidAuthority, [])
  | some opts =>
    let email := pyDictGet opts "email" cfg.ACME_EMAIL
    let directory_url := pyDictGet opts "acme_url" cfg.ACME_DIRECTORY_URL
    let existing_key := pyDictGet opts "acme_private_key" cfg.ACME_PRIVATE_KEY
    let existing_regr := pyDictGet opts "acme_regr" cfg.ACME_REGR
    if truthyOpt existing_key && truthyOpt existing_regr then
      -- reuse branch: deserialize and bind, no network registration
      (.ok (⟨existing_key.getD "", existing_regr, directory_url⟩, none), [])
    else
      -- new-account branch: fresh 2048-bit key, then register
      match env.new_account_result with
      | .error e => (.error e, [.generateKey, .newAccountCall email])
      | .ok registration_uri =>
        match pyDictFind opts "store_account" with
        | none =>
          -- `options['store_account']` raises KeyError when absent
          (.error (.keyErr "store_account"), [.generateKey, .newAccountCall email])
        | some v =>
          if truthyOpt v then
            let new_options := opts ++
              [⟨"acme_private_key", some env.generated_key⟩,
               ⟨"acme_regr", some registration_uri⟩]
            (.ok (⟨env.generated_key, none, directory_url⟩, some registration_uri),
             [.generateKey, .newAccountCall email, .updateOptions new_options])
          else
            (.ok (⟨env.generated_key, none, directory_url⟩, some registration_uri),
             [.generateKey, .newAccountCall email])

/-- The `retrying.retry(stop_max_attempt_number=5, wait_fixed=5000)`
decorator: on any exception the call is repeated until `fuel` further
attempts are exhausted; the last result propagates.  Returns the result,
the concatenated traces, and the number of attempts made. -/
def retryAux {A : Type} (f : Nat → Except AcmeErr A × List Event) :
    Nat → Nat → Except AcmeErr A × List Event × Nat
  | start, 0 =>
    let r := f start
    (r.1, r.2, start + 1)
  | start, fuel + 1 =>
    let r := f start
    match r.1 with
    | .ok a => (.ok a, r.2, start + 1)
    | .error _ =>
      let rest := retryAux f (start + 1) fuel
      (rest.1, r.2 ++ rest.2.1, rest.2.2)

/-- `AcmeHandler.setup_acme_client`: the body wrapped in the retry
decorator (5 attempts in total). -/
def setup_acme_client (cfg : AppConfig) (env : AcmeEnv) (authority : Authority) :
    Except AcmeErr (AcmeClient × Option String) × List Event × Nat :=
  retryAux (fun _ => setup_acme_client_body cfg env authority) 0 4

/-- Outcome of `acme_client.poll_and_finalize(order, deadline)`. -/
inductive PollOutcome
  | ok (orderr : AcmeOrder)
  | acmeProtocolError
  | timeoutErr
  | validationErr
  deriving DecidableEq, Repr

/-- `AcmeHandler.request_certificate`.  The polling loop records its
calls; the outcome of the finalize call is a parameter.  Re-encoding the
leaf via OpenSSL is abstracted by `env.reencode_leaf` (total on truthy
chains; a falsy chain makes the OpenSSL load raise). -/
def request_certificate (cfg : AppConfig) (env : AcmeEnv)
    (authorizations : List AuthorizationRecord) (outcome : PollOutcome) (order : AcmeOrder) :
    Except AcmeErr (String × String) × List Event :=
  let polls := authorizations.flatMap (fun ar => ar.authz.map (fun a => Event.pollAuthz a))
  let finish : AcmeOrder → Except AcmeErr (String × String) × List Event := fun orderr =>
    if truthyOpt orderr.fullchain_pem then
      let chain := orderr.fullchain_pem.getD ""
      let pem_certificate := env.reencode_leaf chain
      let pem_certificate_chain :=
        if truthyOpt cfg.IDENTRUST_CROSS_SIGNED_LE_ICA && env.now_before_ica_expiry then
          cfg.IDENTRUST_CROSS_SIGNED_LE_ICA.getD ""
        else
          pyLstrip (pyDrop chain pem_certificate.length)
      (.ok (pem_certificate, pem_certificate_chain), polls)
    else
      (.error .loadCertError, polls)
  match outcome with
  | .ok orderr => finish orderr
  | .acmeProtocolError => (.error .acmeProtocolError, polls ++ [.sentryReport order.uri])
  | .timeoutErr => (.error .timeoutErr, polls ++ [.sentryReport order.uri])
  | .validationErr =>
    -- `except errors.ValidationError: if order.fullchain_pem: orderr = order else: raise`
    -- note: the bare re-raise performs no sentry/metrics reporting
    if truthyOpt order.fullchain_pem then finish order
    else (.error .validationErr, polls)

/-- Python `str.lower()` (`String.toLower`, written as a plain list map
so that proofs can evaluate it). -/
def pyLower (s : String) : String := ⟨s.data.map Char.toLower⟩

/-- `AcmeDnsHandler.get_dns_challenges`: the three `continue` guards of
the source amount to keeping an authorization iff its identifier equals
the stripped host case-insensitively and its wildcard flag equals the
host's wildcard flag. -/
def get_dns_challenges (host : String) (authorizations : List Authz) : List Challenge :=
  let domain_to_validate := (strip_wildcard host).1
  let is_wildcard := (strip_wildcard host).2
  authorizations.flatMap (fun a =>
    if pyLower a.body.identifier_value == pyLower domain_to_validate
        && a.body.wildcard == is_wildcard then
      a.body.challenges.filter (fun combo => combo.kind == ChallKind.DNS01)
    else [])

/-- The provider registry of `AcmeDnsHandler.get_dns_provider`. -/
def provider_types : List String := ["cloudflare", "dyn", "route53", "ultradns", "powerdns"]

/-- `AcmeDnsHandler.get_dns_provider`. -/
def get_dns_provider (t : String) : Except AcmeErr String :=
  if provider_types.contains t then .ok t else .error (.unknownProvider t)

/-- `self.dns_providers_for_domain.get(host)`. -/
def mapGet (m : List (String × List DnsProvider)) (k : String) : Option (List DnsProvider) :=
  (m.find? (fun kv => kv.1 == k)).map (fun kv => kv.2)

/-- `AcmeDnsHandler.start_dns_challenge`: derives the DNS-01 challenges,
creates one TXT record per challenge and returns the
`AuthorizationRecord`.  `dns_provider_options` is what the caller passes
(`dns_provider.options` in `get_authorizations`). -/
def start_dns_challenge (env : AcmeEnv) (account_number : Option String) (host : String)
    (order_authorizations : List Authz) (dns_provider_options : List (String × String)) :
    Except AcmeErr AuthorizationRecord × List Event :=
  let dns_challenges := get_dns_challenges host order_authorizations
  let host_to_validate := maybe_add_extension (strip_wildcard host).1 dns_provider_options
  if dns_challenges.isEmpty then
    (.error .noChallenges, [])
  else
    let events := dns_challenges.map (fun ch =>
      Event.createTxt (env.validation_domain_name ch host_to_validate)
        (env.validation ch) account_number)
    let change_ids := dns_challenges.map (fun ch =>
      env.create_change_id (env.validation_domain_name ch host_to_validate)
        (env.validation ch) account_number)
    (.ok ⟨host, order_authorizations, dns_challenges, change_ids⟩, events)

/-- The `wait_for_dns_change` loop of `complete_dns_challenge`: raises on
the first failing change id. -/
def wait_changes (env : AcmeEnv) (account : Option String) :
    List String → Except AcmeErr Unit × List Event
  | [] => (.ok (), [])
  | cid :: rest =>
    if env.wait_ok cid account then
      let r := wait_changes env account rest
      (r.1, Event.waitDns cid account :: r.2)
    else (.error (.waitFailed cid), [Event.waitDns cid account])

/-- One iteration of the provider loop of `complete_dns_challenge`.  The
source's verification loop rebinds `response`/`verified`/`dns_challenge`
on each iteration and tests `verified` only after the loop, so only the
bindings of the last challenge survive; `answer_challenge` is then called
once with those last bindings.  An empty challenge list leaves `verified`
unbound (Python `NameError`). -/
def complete_one_provider (env : AcmeEnv) (authz_record : AuthorizationRecord)
    (p : DnsProvider) : Except AcmeErr Unit × List Event :=
  let account_number := dictGet p.credentials "account_id"
  match get_dns_provider p.provider_type with
  | .error e => (.error e, [])
  | .ok _plugin =>
    let w := wait_changes env account_number authz_record.change_id
    match w.1 with
    | .error e => (.error e, w.2)
    | .ok _ =>
      match authz_record.dns_challenge.getLast? with
      | none => (.error .nameErr, w.2)
      | some dns_challenge =>
        let response := env.response_of dns_challenge
        let verified := env.simple_verify dns_challenge authz_record.host
        if !verified then (.error .failedVerification, w.2)
        else (.ok (), w.2 ++ [Event.answerChallenge dns_challenge response])

/-- The provider loop of `complete_dns_challenge`. -/
def complete_providers (env : AcmeEnv) (authz_record : AuthorizationRecord) :
    List DnsProvider → Except AcmeErr Unit × List Event
  | [] => (.ok (), [])
  | p :: rest =>
    let r := complete_one_provider env authz_record p
    match r.1 with
    | .error e => (.error e, r.2)
    | .ok _ =>
      let r2 := complete_providers env authz_record rest
      (r2.1, r.2 ++ r2.2)

/-- `AcmeDnsHandler.complete_dns_challenge`.  The entry debug log formats
`authz_record.authz[0].body.identifier.value`, so an empty `authz` list
raises `IndexError` before anything else happens. -/
def complete_dns_challenge (env : AcmeEnv) (m : List (String × List DnsProvider))
    (authz_record : AuthorizationRecord) : Except AcmeErr Unit × List Event :=
  match authz_record.authz.head? with
  | none => (.error .indexErr, [])
  | some _first_authz =>
  match mapGet m authz_record.host with
  | none => (.error (.noDnsProviders authz_record.host), [])
  | some dns_providers =>
    if dns_providers.isEmpty then (.error (.noDnsProviders authz_record.host), [])
    else complete_providers env authz_record dns_providers

/-- `AcmeDnsHandler.autodetect_dns_providers`, inner step: handling of one
`(provider, suffix)` pair against the running `(selection, match_length)`. -/
def suffix_match (domain name : String) : Bool :=
  name == domain || pyEndsWith domain ("." ++ name)

/-- One step of the suffix scan of `autodetect_dns_providers`. -/
def autodetectStep (domain : String) (st : List DnsProvider × Nat)
    (pn : DnsProvider × String) : List DnsProvider × Nat :=
  if suffix_match domain pn.2 then
    if pn.2.length > st.2 then ([pn.1], pn.2.length)
    else if pn.2.length = st.2 then (st.1 ++ [pn.1], st.2)
    else st
  else st

/-- `AcmeDnsHandler.autodetect_dns_providers`: the value stored into
`self.dns_providers_for_domain[domain]`.  Providers without configured
domains are skipped. -/
def autodetect_dns_providers (all_dns_providers : List DnsProvider) (domain : String) :
    List DnsProvider :=
  (all_dns_providers.foldl (fun st dns_provider =>
      if dns_provider.domains.isEmpty then st
      else dns_provider.domains.foldl
        (fun st2 name => autodetectStep domain st2 (dns_provider, name)) st)
    ([], 0)).1

/-- All `(provider, suffix)` pairs scanned by `autodetect_dns_providers`,
in scan order. -/
def providerNamePairs (all : List DnsProvider) : List (DnsProvider × String) :=
  all.flatMap (fun p => p.domains.map (fun n => (p, n)))

/-- The running maximum the scan keeps in `match_length`, over a pair list. -/
def matchedMax (domain : String) (l : List (DnsProvider × String)) : Nat :=
  (l.filter (fun pn => suffix_match domain pn.2)).foldl (fun a pn => Nat.max a pn.2.length) 0

/-- The maximum matching suffix length over all configured providers. -/
def maxMatchLength (all : List DnsProvider) (domain : String) : Nat :=
  matchedMax domain (providerNamePairs all)

/-- The `complete_dns_challenge` pass of `finalize_authorizations`. -/
def complete_all (env : AcmeEnv) (m : List (String × List DnsProvider)) :
    List AuthorizationRecord → Except AcmeErr Unit × List Event
  | [] => (.ok (), [])
  | r :: rest =>
    let c := complete_dns_challenge env m r
    match c.1 with
    | .error e => (.error e, c.2)
    | .ok _ =>
      let c2 := complete_all env m rest
      (c2.1, c.2 ++ c2.2)

/-- The delete arguments `finalize_authorizations` passes for one
challenge at one provider: note the extension suffix is read from the
provider CREDENTIALS dict there (the creation path read it from the
provider options dict). -/
def finalize_delete_ok (env : AcmeEnv) (r : AuthorizationRecord) (p : DnsProvider)
    (ch : Challenge) : Bool :=
  env.delete_ok r.change_id (dictGet p.credentials "account_id")
    (env.validation_domain_name ch (maybe_add_extension (strip_wildcard r.host).1 p.credentials))
    (env.validation ch)

/-- Inner provider loop of the teardown pass of `finalize_authorizations`:
deletion failures propagate. -/
def delete_for_providers (env : AcmeEnv) (r : AuthorizationRecord) (ch : Challenge) :
    List DnsProvider → Except AcmeErr Unit × List Event
  | [] => (.ok (), [])
  | p :: rest =>
    match get_dns_provider p.provider_type with
    | .error e => (.error e, [])
    | .ok _plugin =>
      let dns_provider_options := p.credentials
      let account_number := dictGet p.credentials "account_id"
      let host_to_validate := maybe_add_extension (strip_wildcard r.host).1 dns_provider_options
      let name := env.validation_domain_name ch host_to_validate
      let value := env.validation ch
      let ev := Event.deleteTxt r.change_id account_number name value
      if env.delete_ok r.change_id account_number name value then
        let rec' := delete_for_providers env r ch rest
        (rec'.1, ev :: rec'.2)
      else (.error .deleteFailed, [ev])

/-- Challenge loop of the teardown pass of `finalize_authorizations`; the
provider list is looked up per challenge, and an absent entry makes the
`for` over `None` raise (`TypeError`). -/
def delete_for_challenges (env : AcmeEnv) (m : List (String × List DnsProvider))
    (r : AuthorizationRecord) : List Challenge → Except AcmeErr Unit × List Event
  | [] => (.ok (), [])
  | ch :: rest =>
    match mapGet m r.host with
    | none => (.error .typeErr, [])
    | some dns_providers =>
      let d := delete_for_providers env r ch dns_providers
      match d.1 with
      | .error e => (.error e, d.2)
      | .ok _ =>
        let d2 := delete_for_challenges env m r rest
        (d2.1, d.2 ++ d2.2)

/-- Record loop of the teardown pass of `finalize_authorizations`. -/
def finalize_records (env : AcmeEnv) (m : List (String × List DnsProvider)) :
    List AuthorizationRecord → Except AcmeErr Unit × List Event
  | [] => (.ok (), [])
  | r :: rest =>
    let d := delete_for_challenges env m r r.dns_challenge
    match d.1 with
    | .error e => (.error e, d.2)
    | .ok _ =>
      let d2 := finalize_records env m rest
      (d2.1, d.2 ++ d2.2)

/-- `AcmeDnsHandler.finalize_authorizations`: complete every record's
challenges, then delete every record's TXT records; deletion failures
are not swallowed. -/
def finalize_authorizations (env : AcmeEnv) (m : List (String × List DnsProvider))
    (authorizations : List AuthorizationRecord) :
    Except AcmeErr (List AuthorizationRecord) × List Event :=
  let c := complete_all env m authorizations
  match c.1 with
  | .error e => (.error e, c.2)
  | .ok _ =>
    let d := finalize_records env m authorizations
    match d.1 with
    | .error e => (.error e, c.2 ++ d.2)
    | .ok _ => (.ok authorizations, c.2 ++ d.2)

/-- One provider of the cleanup sweep: every delete is attempted and any
delete failure is swallowed (`except Exception: pass`); the registry
lookup, however, happens outside the `try`. -/
def cleanup_one_provider (env : AcmeEnv) (authz_record : AuthorizationRecord)
    (p : DnsProvider) : Except AcmeErr Unit × List Event :=
  let dns_provider_options := p.credentials
  let account_number := dictGet p.credentials "account_id"
  let host_to_validate := maybe_add_extension (strip_wildcard authz_record.host).1
    dns_provider_options
  match get_dns_provider p.provider_type with
  | .error e => (.error e, [])
  | .ok _plugin =>
    (.ok (), authz_record.dns_challenge.map (fun ch =>
      Event.deleteTxt authz_record.change_id account_number
        (env.validation_domain_name ch host_to_validate)
        (env.validation ch)))

/-- Provider loop of `cleanup_dns_challenges`. -/
def cleanup_providers (env : AcmeEnv) (authz_record : AuthorizationRecord) :
    List DnsProvider → Except AcmeErr Unit × List Event
  | [] => (.ok (), [])
  | p :: rest =>
    let r := cleanup_one_provider env authz_record p
    match r.1 with
    | .error e => (.error e, r.2)
    | .ok _ =>
      let r2 := cleanup_providers env authz_record rest
      (r2.1, r.2 ++ r2.2)

/-- `AcmeDnsHandler.cleanup_dns_challenges`: best-effort teardown.  The
provider-map lookup is unguarded: an absent host makes the `for` over
`None` raise (`TypeError`), outside any `try`. -/
def cleanup_dns_challenges (env : AcmeEnv) (m : List (String × List DnsProvider)) :
    List AuthorizationRecord → Except AcmeErr Unit × List Event
  | [] => (.ok (), [])
  | authz_record :: rest =>
    match mapGet m authz_record.host with
    | none => (.error .typeErr, [])
    | some dns_providers =>
      let r := cleanup_providers env authz_record dns_providers
      match r.1 with
      | .error e => (.error e, r.2)
      | .ok _ =>
        let r2 := cleanup_dns_challenges env m rest
        (r2.1, r.2 ++ r2.2)

/-- The full deletion sweep the cleanup pass is supposed to attempt: one
delete per challenge of every record at every provider serving its host. -/
def cleanupSweep (env : AcmeEnv) (m : List (String × List DnsProvider))
    (auths : List AuthorizationRecord) : List Event :=
  auths.flatMap (fun r =>
    ((mapGet m r.host).getD []).flatMap (fun p =>
      r.dns_challenge.map (fun ch =>
        Event.deleteTxt r.change_id (dictGet p.credentials "account_id")
          (env.validation_domain_name ch
            (maybe_add_extension (strip_wildcard r.host).1 p.credentials))
          (env.validation ch))))

/-- Observation: the name/value arguments of a `create_txt_record` call. -/
def createdNameValue : Event → Option (String × String)
  | .createTxt n v _ => some (n, v)
  | _ => none

/-- Observation: the name/value arguments of a `delete_txt_record` call. -/
def deletedNameValue : Event → Option (String × String)
  | .deleteTxt _ _ n v => some (n, v)
  | _ => none

/-- Observation: is this event the new-account registration call? -/
def isNewAccountCall : Event → Bool
  | .newAccountCall _ => true
  | _ => false

/-- Sample environment: every external call succeeds. -/
def envAllOk : AcmeEnv :=
  ⟨fun _ _ _ => "chg", fun _ _ => true, fun _ _ => true, fun ch => "resp-" ++ ch.token,
   fun _ _ _ _ => true, fun _ h => "_acme-challenge." ++ h, fun ch => "val-" ++ ch.token,
   fun s => s, false, "genkey", .ok "reg-uri"⟩

/-- Sample environment: local verification succeeds only for the
challenge with token `tok2`. -/
def envVerifyTok2 : AcmeEnv :=
  ⟨fun _ _ _ => "chg", fun _ _ => true, fun ch _ => ch.token == "tok2",
   fun ch => "resp-" ++ ch.token, fun _ _ _ _ => true,
   fun _ h => "_acme-challenge." ++ h, fun ch => "val-" ++ ch.token,
   fun s => s, false, "genkey", .ok "reg-uri"⟩

/-- Sample environment: every TXT-record deletion fails. -/
def envDeleteFails : AcmeEnv :=
  ⟨fun _ _ _ => "chg", fun _ _ => true, fun _ _ => true, fun ch => "resp-" ++ ch.token,
   fun _ _ _ _ => false, fun _ h => "_acme-challenge." ++ h, fun ch => "val-" ++ ch.token,
   fun s => s, false, "genkey", .ok "reg-uri"⟩

/-- A route53 provider with no challenge extension configured anywhere. -/
def pPlain : DnsProvider := ⟨"route53", [("account_id", "12345")], [], ["example.com"]⟩

/-- A route53 provider whose OPTIONS dict carries a challenge extension
while its CREDENTIALS dict does not. -/
def pExt : DnsProvider :=
  ⟨"route53", [("account_id", "11")], [("acme_challenge_extension", "-acme")], ["example.com"]⟩

/-- Sample DNS-01 challenges. -/
def cTok1 : Challenge := ⟨ChallKind.DNS01, "tok1"⟩

def cTok2 : Challenge := ⟨ChallKind.DNS01, "tok2"⟩

def cT : Challenge := ⟨ChallKind.DNS01, "t"⟩

/-- Sample authorization for `example.com` with one DNS-01 challenge. -/
def authzEx : Authz := ⟨⟨"example.com", false, [cT]⟩⟩

/-- Authorization for `example.com` carrying the two sample challenges. -/
def authzTwo : Authz := ⟨⟨"example.com", false, [cTok1, cTok2]⟩⟩

/-- Record with two DNS-01 challenges, as creation would build it. -/
def recTwoChalls : AuthorizationRecord :=
  ⟨"example.com", [authzTwo], [cTok1, cTok2], ["chg", "chg"]⟩

/-- Record as produced by `start_dns_challenge` for `example.com`. -/
def recPlain : AuthorizationRecord := ⟨"example.com", [authzEx], [cT], ["chg"]⟩

/-- Record whose host has no entry in the provider map. -/
def recNoMap : AuthorizationRecord := ⟨"nomap.example", [], [cT], []⟩

/-- Provider maps for the sample hosts. -/
def mPlain : List (String × List DnsProvider) := [("example.com", [pPlain])]

def mExt : List (String × List DnsProvider) := [("example.com", [pExt])]

/-- Config with nothing set. -/
def cfgNone : AppConfig := ⟨none, none, none, none, none, none⟩

/-- Config with only a process-wide default account key set. -/
def cfgDefaultKey : AppConfig := ⟨none, none, none, some "K", none, none⟩

/-- Authority with a falsy options string. -/
def authNoOpts : Authority := ⟨1, none⟩

/-- Authority with options but no `store_account` entry. -/
def authEmailOnly : Authority := ⟨2, some [⟨"email", some "a@b.com"⟩]⟩

/-- Authority whose `acme_private_key` option is present but empty while
`acme_regr` is stored; the process default supplies a key. -/
def authEmptyKey : Authority :=
  ⟨3, some [⟨"acme_private_key", some ""⟩, ⟨"acme_regr", some "R"⟩,
            ⟨"store_account", some ""⟩]⟩

/-- Authority with both account parts stored in its options. -/
def authStored : Authority :=
  ⟨4, some [⟨"acme_private_key", some "KEY"⟩, ⟨"acme_regr", some "REG"⟩]⟩

/-- Authority on the new-account path with persistence declined. -/
def authStoreFalse : Authority :=
  ⟨5, some [⟨"email", some "a@b.com"⟩, ⟨"store_account", some ""⟩]⟩

/-- Sample orders. -/
def orderNoChain : AcmeOrder := ⟨"http://acme/order/1", none⟩

def orderWithChain : AcmeOrder := ⟨"http://acme/order/2", some "PEMDATA"⟩

/-- Observation: did the call succeed (no exception)? -/
def exceptOk {A : Type} : Except AcmeErr A → Bool
  | .ok _ => true
  | .error _ => false

/-! ## Helper lemmas -/

theorem retryAux_const_error {A : Type} (f : Nat → Except AcmeErr A × List Event)
    (e : AcmeErr) (hf : ∀ i, f i = (.error e, [])) (fuel : Nat) :
    ∀ start, retryAux f start fuel = (.error e, [], start + fuel + 1) := by
  induction fuel with
  | zero => intro start; simp [retryAux, hf start]
  | succ n ih =>
    intro start
    have harith : start + 1 + n + 1 = start + (n + 1) + 1 := by omega
    simp only [retryAux, hf start, ih (start + 1), harith, List.nil_append]

theorem retryAux_first_ok {A : Type} (f : Nat → Except AcmeErr A × List Event)
    (v : A) (tr : List Event) (fuel : Nat) :
    ∀ start, f start = (.ok v, tr) → retryAux f start fuel = (.ok v, tr, start + 1) := by
  induction fuel with
  | zero => intro start h; simp [retryAux, h]
  | succ n _ => intro start h; simp [retryAux, h]

theorem mem_retryAux_trace {A : Type} (f : Nat → Except AcmeErr A × List Event)
    (x : Event) (fuel : Nat) :
    ∀ start, x ∈ (f start).2 → x ∈ (retryAux f start fuel).2.1 := by
  induction fuel with
  | zero => intro start h; simpa [retryAux] using h
  | succ n _ =>
    intro start h
    cases hr : (f start).1 with
    | ok a => simp [retryAux, hr]; exact h
    | error e => simp [retryAux, hr]; exact Or.inl h

theorem truthy_pyDictGet_any_or (opts : List AuthorityOption) (n : String) (d : Option String)
    (h : truthyOpt (pyDictGet opts n d) = true) :
    (opts.any (fun o => o.name == n && truthyOpt o.value) || truthyOpt d) = true := by
  unfold pyDictGet at h
  cases hf : opts.reverse.find? (fun o => o.name == n) with
  | none => rw [hf] at h; simp [h]
  | some o =>
    rw [hf] at h
    have hname := List.find?_some hf
    have hmem : o ∈ opts.reverse := List.mem_of_find?_eq_some hf
    rw [List.mem_reverse] at hmem
    have hany : opts.any (fun o => o.name == n && truthyOpt o.value) = true :=
      List.any_eq_true.mpr ⟨o, hmem, by simp only [hname, h, Bool.and_self]⟩
    simp [hany]

/-! ## Claims about `setup_acme_client` (C5, C6, C7) and `reuse_account` (C10) -/

/-- Claim C5 counterexample: for an authority with no configuration
options, the `InvalidAuthority` failure is NOT surfaced immediately:
the retry decorator re-runs the body, and 5 attempts (not 1) are made
before the error propagates. -/
theorem setup_acme_client_counterexample_c5 :
    (setup_acme_client cfgNone envAllOk authNoOpts).1 = .error .invalidAuthority ∧
    (setup_acme_client cfgNone envAllOk authNoOpts).2.2 = 5 ∧
    ¬ (setup_acme_client cfgNone envAllOk authNoOpts).2.2 = 1 := by decide

/-- Claim C5 (amended): `setup_acme_client` fails with `InvalidAuthority`
when the authority has no configuration options, but — like every other
failure of the body — this error is retried by the decorator: 5 attempts
are made with a fixed delay, after which the last error propagates to
the caller.  No failure, configuration errors included, is surfaced
before the retries are exhausted. -/
theorem setup_acme_client_no_options_retried (cfg : AppConfig) (env : AcmeEnv)
    (a : Authority) (h : a.options = none) :
    setup_acme_client cfg env a = (.error .invalidAuthority, [], 5) := by
  have hb : ∀ i : Nat,
      (fun _ : Nat => setup_acme_client_body cfg env a) i = (.error .invalidAuthority, []) := by
    intro i; simp [setup_acme_client_body, h]
  simpa [setup_acme_client] using retryAux_const_error _ .invalidAuthority hb 4 0

theorem setup_acme_client_no_options_retried_witness :
    setup_acme_client cfgNone envAllOk authNoOpts = (.error .invalidAuthority, [], 5) :=
  setup_acme_client_no_options_retried cfgNone envAllOk authNoOpts rfl

/-- Claim C6: when the effective option lookup (authority options first,
process defaults as fallback) yields a truthy stored private key and a
truthy stored registration, `setup_acme_client` takes the reuse branch:
it binds a client to the stored account and returns with an empty trace —
no key generation, no new-account registration call, no option update —
on the first attempt.  The function is deterministic in `(cfg, env, a)`,
so repeated calls with the same stored material behave identically. -/
theorem setup_acme_client_reuses_account (cfg : AppConfig) (env : AcmeEnv)
    (a : Authority) (opts : List AuthorityOption)
    (hopts : a.options = some opts)
    (hkey : truthyOpt (pyDictGet opts "acme_private_key" cfg.ACME_PRIVATE_KEY) = true)
    (hregr : truthyOpt (pyDictGet opts "acme_regr" cfg.ACME_REGR) = true) :
    setup_acme_client cfg env a =
      (.ok (⟨(pyDictGet opts "acme_private_key" cfg.ACME_PRIVATE_KEY).getD "",
             pyDictGet opts "acme_regr" cfg.ACME_REGR,
             pyDictGet opts "acme_url" cfg.ACME_DIRECTORY_URL⟩, none), [], 1) := by
  have hb : setup_acme_client_body cfg env a =
      (.ok (⟨(pyDictGet opts "acme_private_key" cfg.ACME_PRIVATE_KEY).getD "",
             pyDictGet opts "acme_regr" cfg.ACME_REGR,
             pyDictGet opts "acme_url" cfg.ACME_DIRECTORY_URL⟩, none), []) := by
    simp [setup_acme_client_body, hopts, hkey, hregr]
  simpa [setup_acme_client] using
    retryAux_first_ok (fun _ => setup_acme_client_body cfg env a) _ _ 4 0 hb

theorem setup_acme_client_reuses_account_witness :
    setup_acme_client cfgNone envAllOk authStored =
      (.ok (⟨"KEY", some "REG", none⟩, none), [], 1) := by
  rw [setup_acme_client_reuses_account cfgNone envAllOk authStored
        [⟨"acme_private_key", some "KEY"⟩, ⟨"acme_regr", some "REG"⟩]
        rfl (by decide) (by decide)]
  decide

/-- Claim C7 counterexample: `authEmailOnly` does not request
persistence (it has no `store_account` option at all), yet on the
new-account path `options['store_account']` raises `KeyError`, so setup
does NOT complete successfully. -/
theorem setup_acme_client_counterexample_c7 :
    authEmailOnly.options = some [⟨"email", some "a@b.com"⟩] ∧
    pyDictFind [⟨"email", some "a@b.com"⟩] "store_account" = none ∧
    (setup_acme_client cfgNone envAllOk authEmailOnly).1 = .error (.keyErr "store_account") := by
  decide

/-- Claim C7 (amended): on the new-account path, when the authority's
options contain a `store_account` entry with a falsy value, the stored
configuration is left unchanged (no `update_options` call appears in the
trace) and setup completes successfully.  (When the `store_account` key
is absent entirely, the bracket access raises `KeyError` instead and
setup fails — see the counterexample.) -/
theorem setup_acme_client_no_persistence (cfg : AppConfig) (env : AcmeEnv)
    (a : Authority) (opts : List AuthorityOption) (u : String) (v : Option String)
    (hopts : a.options = some opts)
    (hnew : (truthyOpt (pyDictGet opts "acme_private_key" cfg.ACME_PRIVATE_KEY) &&
             truthyOpt (pyDictGet opts "acme_regr" cfg.ACME_REGR)) = false)
    (hreg : env.new_account_result = .ok u)
    (hstore : pyDictFind opts "store_account" = some v)
    (hv : truthyOpt v = false) :
    setup_acme_client cfg env a =
      (.ok (⟨env.generated_key, none, pyDictGet opts "acme_url" cfg.ACME_DIRECTORY_URL⟩,
            some u),
       [Event.generateKey, Event.newAccountCall (pyDictGet opts "email" cfg.ACME_EMAIL)],
       1) ∧
    (∀ o, Event.updateOptions o ∉ (setup_acme_client cfg env a).2.1) := by
  have hb : setup_acme_client_body cfg env a =
      (.ok (⟨env.generated_key, none, pyDictGet opts "acme_url" cfg.ACME_DIRECTORY_URL⟩,
            some u),
       [Event.generateKey, Event.newAccountCall (pyDictGet opts "email" cfg.ACME_EMAIL)]) := by
    simp [setup_acme_client_body, hopts, hnew, hreg, hstore, hv]
  have hmain : setup_acme_client cfg env a =
      (.ok (⟨env.generated_key, none, pyDictGet opts "acme_url" cfg.ACME_DIRECTORY_URL⟩,
            some u),
       [Event.generateKey, Event.newAccountCall (pyDictGet opts "email" cfg.ACME_EMAIL)],
       1) := by
    simpa [setup_acme_client] using
      retryAux_first_ok (fun _ => setup_acme_client_body cfg env a) _ _ 4 0 hb
  refine ⟨hmain, ?_⟩
  intro o
  rw [hmain]
  simp

theorem setup_acme_client_no_persistence_witness :
    setup_acme_client cfgNone envAllOk authStoreFalse =
      (.ok (⟨"genkey", none, none⟩, some "reg-uri"),
       [Event.generateKey, Event.newAccountCall (some "a@b.com")], 1) := by
  rw [(setup_acme_client_no_persistence cfgNone envAllOk authStoreFalse
        [⟨"email", some "a@b.com"⟩, ⟨"store_account", some ""⟩] "reg-uri" (some "")
        rfl (by decide) rfl (by decide) (by decide)).1]
  decide

/-- Helper for C10: whenever the reuse condition fails, the body's trace
contains the new-account registration call. -/
theorem newAccount_in_body_of_not_reuse (cfg : AppConfig) (env : AcmeEnv)
    (a : Authority) (opts : List AuthorityOption)
    (hopts : a.options = some opts)
    (hcond : (truthyOpt (pyDictGet opts "acme_private_key" cfg.ACME_PRIVATE_KEY) &&
              truthyOpt (pyDictGet opts "acme_regr" cfg.ACME_REGR)) = false) :
    Event.newAccountCall (pyDictGet opts "email" cfg.ACME_EMAIL)
      ∈ (setup_acme_client_body cfg env a).2 := by
  simp only [setup_acme_client_body, hopts, hcond, Bool.false_eq_true, if_false]
  cases env.new_account_result with
  | error e => simp
  | ok u =>
    cases pyDictFind opts "store_account" with
    | none => simp
    | some v => cases hv : truthyOpt v <;> simp [hv]

/-- Claim C10 counterexample: `acme_private_key` is present with an empty
value while the process default supplies a key and `acme_regr` is truthy:
`reuse_account` returns True, yet `setup_acme_client` takes the
new-account path and issues the registration call. -/
theorem reuse_account_setup_disagree_c10 :
    reuse_account cfgDefaultKey authEmptyKey = .ok true ∧
    ((setup_acme_client cfgDefaultKey envAllOk authEmptyKey).2.1.filter isNewAccountCall) ≠ [] := by
  decide

/-- Claim C10 (amended): only one direction holds.  For every authority
with non-empty options, if `setup_acme_client` takes the account-reuse
branch — observable as its trace containing no new-account registration
call — then `reuse_account` returns True.  The converse fails when an
option named `acme_private_key`/`acme_regr` is present with a falsy value
while the process-wide default for it is set (see the counterexample):
there `reuse_account` is True but setup registers a new account. -/
theorem reuse_account_of_setup_reuse (cfg : AppConfig) (env : AcmeEnv)
    (a : Authority) (opts : List AuthorityOption)
    (hopts : a.options = some opts)
    (hnoreg : ((setup_acme_client cfg env a).2.1.filter isNewAccountCall) = []) :
    reuse_account cfg a = .ok true := by
  cases hcond : (truthyOpt (pyDictGet opts "acme_private_key" cfg.ACME_PRIVATE_KEY) &&
                 truthyOpt (pyDictGet opts "acme_regr" cfg.ACME_REGR)) with
  | true =>
    have hkey := (Bool.and_eq_true _ _).mp hcond |>.1
    have hregr := (Bool.and_eq_true _ _).mp hcond |>.2
    have h1 := truthy_pyDictGet_any_or opts "acme_private_key" cfg.ACME_PRIVATE_KEY hkey
    have h2 := truthy_pyDictGet_any_or opts "acme_regr" cfg.ACME_REGR hregr
    simp only [reuse_account, hopts]
    rw [h1, h2]
    rfl
  | false =>
    exfalso
    have hmem := newAccount_in_body_of_not_reuse cfg env a opts hopts hcond
    have hmem2 : Event.newAccountCall (pyDictGet opts "email" cfg.ACME_EMAIL)
        ∈ (setup_acme_client cfg env a).2.1 :=
      mem_retryAux_trace (fun _ => setup_acme_client_body cfg env a) _ 4 0 hmem
    have hfil : Event.newAccountCall (pyDictGet opts "email" cfg.ACME_EMAIL)
        ∈ ((setup_acme_client cfg env a).2.1.filter isNewAccountCall) :=
      List.mem_filter.mpr ⟨hmem2, rfl⟩
    rw [hnoreg] at hfil
    exact List.not_mem_nil _ hfil

theorem reuse_account_of_setup_reuse_witness :
    reuse_account cfgNone authStored = .ok true :=
  reuse_account_of_setup_reuse cfgNone envAllOk authStored
    [⟨"acme_private_key", some "KEY"⟩, ⟨"acme_regr", some "REG"⟩] rfl (by decide)

/-! ## Claims about `request_certificate` (C8), `get_dns_challenges` (C9)
and `complete_dns_challenge` (C1) -/

/-- Claim C8 counterexample: a validation error on an order with no
populated chain is re-raised as fatal, but WITHOUT the locator report the
claim promises — the call trace is empty (in particular it contains no
sentry report carrying the order's uri). -/
theorem request_certificate_counterexample_c8 :
    (request_certificate cfgNone envAllOk [] PollOutcome.validationErr orderNoChain).1
      = .error .validationErr ∧
    (request_certificate cfgNone envAllOk [] PollOutcome.validationErr orderNoChain).2 = [] := by
  decide

/-- Claim C8 (amended): order finalization succeeds in exactly two cases —
the poll-and-finalize call returns an order with a truthy full chain, or a
validation error is raised while the order object already carries a truthy
chain (benign race).  ACME protocol errors and timeouts are reported with
the order's locator and re-raised as fatal.  A validation error with no
populated chain is re-raised as fatal but WITHOUT the locator report (the
bare `raise` performs no reporting). -/
theorem request_certificate_outcomes (cfg : AppConfig) (env : AcmeEnv)
    (auths : List AuthorizationRecord) (order : AcmeOrder) :
    (∀ orderr, exceptOk (request_certificate cfg env auths (.ok orderr) order).1
        = truthyOpt orderr.fullchain_pem) ∧
    (exceptOk (request_certificate cfg env auths .validationErr order).1
        = truthyOpt order.fullchain_pem) ∧
    ((request_certificate cfg env auths .acmeProtocolError order).1 = .error .acmeProtocolError ∧
      Event.sentryReport order.uri ∈ (request_certificate cfg env auths .acmeProtocolError order).2) ∧
    ((request_certificate cfg env auths .timeoutErr order).1 = .error .timeoutErr ∧
      Event.sentryReport order.uri ∈ (request_certificate cfg env auths .timeoutErr order).2) ∧
    (truthyOpt order.fullchain_pem = false →
      (request_certificate cfg env auths .validationErr order).1 = .error .validationErr ∧
      ∀ u, Event.sentryReport u ∉ (request_certificate cfg env auths .validationErr order).2) := by
  refine ⟨?_, ?_, ?_, ?_, ?_⟩
  · intro orderr
    cases h : truthyOpt orderr.fullchain_pem <;> simp [request_certificate, h, exceptOk]
  · cases h : truthyOpt order.fullchain_pem <;> simp [request_certificate, h, exceptOk]
  · simp [request_certificate]
  · simp [request_certificate]
  · intro h
    refine ⟨by simp [request_certificate, h], ?_⟩
    intro u
    simp [request_certificate, h, List.mem_flatMap]

theorem request_certificate_outcomes_witness :
    (request_certificate cfgNone envAllOk [] PollOutcome.validationErr orderNoChain).1
      = .error .validationErr ∧
    ∀ u, Event.sentryReport u
      ∉ (request_certificate cfgNone envAllOk [] PollOutcome.validationErr orderNoChain).2 :=
  (request_certificate_outcomes cfgNone envAllOk [] orderNoChain).2.2.2.2 (by decide)

/-- Claim C9: `get_dns_challenges` returns exactly the DNS-01 challenges
of those authorizations whose identifier equals the wildcard-stripped
host case-insensitively and whose wildcard flag agrees with the host's
wildcard-ness; all other challenge types and all mismatching
authorizations contribute nothing. -/
theorem get_dns_challenges_spec (host : String) (authorizations : List Authz) (c : Challenge) :
    c ∈ get_dns_challenges host authorizations ↔
      (c.kind = ChallKind.DNS01 ∧ ∃ a, a ∈ authorizations ∧ c ∈ a.body.challenges ∧
        pyLower a.body.identifier_value = pyLower (strip_wildcard host).1 ∧
        a.body.wildcard = (strip_wildcard host).2) := by
  simp only [get_dns_challenges, List.mem_flatMap]
  constructor
  · rintro ⟨a, ha, hc⟩
    split at hc
    case isTrue hcond =>
      rw [Bool.and_eq_true, beq_iff_eq, beq_iff_eq] at hcond
      have hcf := List.mem_filter.mp hc
      exact ⟨by simpa using hcf.2, a, ha, hcf.1, hcond.1, hcond.2⟩
    case isFalse => simp at hc
  · rintro ⟨hkind, a, ha, hmem, hid, hw⟩
    refine ⟨a, ha, ?_⟩
    have hcond : (pyLower a.body.identifier_value == pyLower (strip_wildcard host).1
        && a.body.wildcard == (strip_wildcard host).2) = true := by simp [hid, hw]
    rw [if_pos hcond]
    exact List.mem_filter.mpr ⟨hmem, by simp [hkind]⟩

/-- Claim C1 (code bug): on a record with a non-empty authorization list
(so the entry debug log's `authz[0]` access succeeds) and two DNS-01
challenges, local verification failing for the first and succeeding for
the second, `complete_dns_challenge` raises nothing: the `if not
verified` check sits after the loop and therefore tests only the last
challenge, and the answer for that last challenge is submitted to the
ACME client even though the first challenge failed local verification. -/
theorem complete_dns_challenge_submits_despite_failed_verification :
    recTwoChalls.authz ≠ [] ∧
    envVerifyTok2.simple_verify cTok1 recTwoChalls.host = false ∧
    cTok1 ∈ recTwoChalls.dns_challenge ∧
    complete_dns_challenge envVerifyTok2 mPlain recTwoChalls =
      (.ok (), [Event.waitDns "chg" (some "12345"), Event.waitDns "chg" (some "12345"),
                Event.answerChallenge cTok2 "resp-tok2"]) := by decide

/-! ## Claim C2: cleanup never raises, finalize propagates -/

theorem cleanup_one_provider_ok (env : AcmeEnv) (r : AuthorizationRecord) (p : DnsProvider)
    (hp : p.provider_type ∈ provider_types) :
    cleanup_one_provider env r p = (.ok (), r.dns_challenge.map (fun ch =>
      Event.deleteTxt r.change_id (dictGet p.credentials "account_id")
        (env.validation_domain_name ch
          (maybe_add_extension (strip_wildcard r.host).1 p.credentials))
        (env.validation ch))) := by
  simp [cleanup_one_provider, get_dns_provider, hp]

theorem cleanup_providers_sweep (env : AcmeEnv) (r : AuthorizationRecord)
    (ps : List DnsProvider) (hty : ∀ p ∈ ps, p.provider_type ∈ provider_types) :
    cleanup_providers env r ps =
      (.ok (), ps.flatMap (fun p => r.dns_challenge.map (fun ch =>
        Event.deleteTxt r.change_id (dictGet p.credentials "account_id")
          (env.validation_domain_name ch
            (maybe_add_extension (strip_wildcard r.host).1 p.credentials))
          (env.validation ch)))) := by
  induction ps with
  | nil => simp [cleanup_providers]
  | cons p rest ih =>
    have hp := hty p (List.mem_cons_self p rest)
    have hrest := ih (fun q hq => hty q (List.mem_cons_of_mem p hq))
    simp [cleanup_providers, cleanup_one_provider_ok env r p hp, hrest, List.flatMap_cons]

theorem cleanup_dns_challenges_sweep (env : AcmeEnv)
    (m : List (String × List DnsProvider)) (auths : List AuthorizationRecord)
    (hmap : ∀ r ∈ auths, (mapGet m r.host).isSome = true ∧
      ∀ p ∈ (mapGet m r.host).getD [], p.provider_type ∈ provider_types) :
    cleanup_dns_challenges env m auths = (.ok (), cleanupSweep env m auths) := by
  induction auths with
  | nil => simp [cleanup_dns_challenges, cleanupSweep]
  | cons r rest ih =>
    obtain ⟨hsome, hty⟩ := hmap r (List.mem_cons_self r rest)
    have hrest := ih (fun q hq => hmap q (List.mem_cons_of_mem r hq))
    cases hps : mapGet m r.host with
    | none => rw [hps] at hsome; cases hsome
    | some ps =>
      rw [hps] at hty
      simp only [Option.getD_some] at hty
      simp [cleanup_dns_challenges, hps, cleanup_providers_sweep env r ps hty, hrest,
        cleanupSweep, List.flatMap_cons]

theorem delete_for_providers_cons_ok (env : AcmeEnv) (r : AuthorizationRecord) (ch : Challenge)
    (p : DnsProvider) (rest : List DnsProvider)
    (hp : p.provider_type ∈ provider_types)
    (hdel : finalize_delete_ok env r p ch = true) :
    (delete_for_providers env r ch (p :: rest)).1 = (delete_for_providers env r ch rest).1 := by
  unfold finalize_delete_ok at hdel
  simp [delete_for_providers, get_dns_provider, hp, hdel]

theorem delete_for_providers_cons_err (env : AcmeEnv) (r : AuthorizationRecord) (ch : Challenge)
    (p : DnsProvider) (rest : List DnsProvider)
    (hp : p.provider_type ∈ provider_types)
    (hdel : finalize_delete_ok env r p ch = false) :
    (delete_for_providers env r ch (p :: rest)).1 = .error .deleteFailed := by
  unfold finalize_delete_ok at hdel
  simp [delete_for_providers, get_dns_provider, hp, hdel]

theorem delete_for_providers_spec (env : AcmeEnv) (r : AuthorizationRecord) (ch : Challenge)
    (ps : List DnsProvider) (hty : ∀ p ∈ ps, p.provider_type ∈ provider_types) :
    (((delete_for_providers env r ch ps).1 = .ok ()) ↔
      (∀ p ∈ ps, finalize_delete_ok env r p ch = true)) ∧
    ((delete_for_providers env r ch ps).1 = .ok () ∨
      (delete_for_providers env r ch ps).1 = .error .deleteFailed) := by
  induction ps with
  | nil => simp [delete_for_providers]
  | cons p rest ih =>
    have hp := hty p (List.mem_cons_self p rest)
    obtain ⟨ih1, ih2⟩ := ih (fun q hq => hty q (List.mem_cons_of_mem p hq))
    cases hdel : finalize_delete_ok env r p ch with
    | true =>
      have hred := delete_for_providers_cons_ok env r ch p rest hp hdel
      refine ⟨?_, ?_⟩
      · rw [hred, ih1, List.forall_mem_cons]
        exact ⟨fun h => ⟨hdel, h⟩, fun h => h.2⟩
      · rw [hred]; exact ih2
    | false =>
      have hred := delete_for_providers_cons_err env r ch p rest hp hdel
      refine ⟨?_, Or.inr hred⟩
      rw [hred]
      constructor
      · intro h; cases h
      · intro hall
        rw [hall p (List.mem_cons_self p rest)] at hdel
        cases hdel

theorem delete_for_challenges_cons_ok (env : AcmeEnv) (m : List (String × List DnsProvider))
    (r : AuthorizationRecord) (ch : Challenge) (rest : List Challenge) (ps : List DnsProvider)
    (hmapr : mapGet m r.host = some ps)
    (hok : (delete_for_providers env r ch ps).1 = .ok ()) :
    (delete_for_challenges env m r (ch :: rest)).1 = (delete_for_challenges env m r rest).1 := by
  simp [delete_for_challenges, hmapr, hok]

theorem delete_for_challenges_cons_err (env : AcmeEnv) (m : List (String × List DnsProvider))
    (r : AuthorizationRecord) (ch : Challenge) (rest : List Challenge) (ps : List DnsProvider)
    (e : AcmeErr) (hmapr : mapGet m r.host = some ps)
    (herr : (delete_for_providers env r ch ps).1 = .error e) :
    (delete_for_challenges env m r (ch :: rest)).1 = .error e := by
  simp [delete_for_challenges, hmapr, herr]

theorem delete_for_challenges_spec (env : AcmeEnv) (m : List (String × List DnsProvider))
    (r : AuthorizationRecord) (ps : List DnsProvider)
    (hmapr : mapGet m r.host = some ps)
    (hty : ∀ p ∈ ps, p.provider_type ∈ provider_types)
    (chs : List Challenge) :
    (((delete_for_challenges env m r chs).1 = .ok ()) ↔
      (∀ ch ∈ chs, ∀ p ∈ ps, finalize_delete_ok env r p ch = true)) ∧
    ((delete_for_challenges env m r chs).1 = .ok () ∨
      (delete_for_challenges env m r chs).1 = .error .deleteFailed) := by
  induction chs with
  | nil => simp [delete_for_challenges]
  | cons ch rest ih =>
    obtain ⟨ih1, ih2⟩ := ih
    obtain ⟨dp1, dp2⟩ := delete_for_providers_spec env r ch ps hty
    rcases dp2 with hok | herr
    · have hred := delete_for_challenges_cons_ok env m r ch rest ps hmapr hok
      refine ⟨?_, ?_⟩
      · rw [hred, ih1, List.forall_mem_cons]
        exact ⟨fun h => ⟨dp1.mp hok, h⟩, fun h => h.2⟩
      · rw [hred]; exact ih2
    · have hred := delete_for_challenges_cons_err env m r ch rest ps _ hmapr herr
      refine ⟨?_, Or.inr hred⟩
      rw [hred]
      constructor
      · intro h; cases h
      · intro hall
        have := dp1.mpr (hall ch (List.mem_cons_self ch rest))
        rw [this] at herr
        cases herr

theorem finalize_records_cons_ok (env : AcmeEnv) (m : List (String × List DnsProvider))
    (r : AuthorizationRecord) (rest : List AuthorizationRecord)
    (hok : (delete_for_challenges env m r r.dns_challenge).1 = .ok ()) :
    (finalize_records env m (r :: rest)).1 = (finalize_records env m rest).1 := by
  simp [finalize_records, hok]

theorem finalize_records_cons_err (env : AcmeEnv) (m : List (String × List DnsProvider))
    (r : AuthorizationRecord) (rest : List AuthorizationRecord) (e : AcmeErr)
    (herr : (delete_for_challenges env m r r.dns_challenge).1 = .error e) :
    (finalize_records env m (r :: rest)).1 = .error e := by
  simp [finalize_records, herr]

theorem finalize_records_spec (env : AcmeEnv) (m : List (String × List DnsProvider))
    (auths : List AuthorizationRecord)
    (hmap : ∀ r ∈ auths, (mapGet m r.host).isSome = true ∧
      ∀ p ∈ (mapGet m r.host).getD [], p.provider_type ∈ provider_types) :
    (((finalize_records env m auths).1 = .ok ()) ↔
      (∀ r ∈ auths, ∀ ch ∈ r.dns_challenge, ∀ p ∈ (mapGet m r.host).getD [],
        finalize_delete_ok env r p ch = true)) ∧
    ((finalize_records env m auths).1 = .ok () ∨
      (finalize_records env m auths).1 = .error .deleteFailed) := by
  induction auths with
  | nil => simp [finalize_records]
  | cons r rest ih =>
    obtain ⟨hsome, hty⟩ := hmap r (List.mem_cons_self r rest)
    obtain ⟨ih1, ih2⟩ := ih (fun q hq => hmap q (List.mem_cons_of_mem r hq))
    cases hps : mapGet m r.host with
    | none => rw [hps] at hsome; cases hsome
    | some ps =>
      rw [hps] at hty
      simp only [Option.getD_some] at hty
      obtain ⟨dc1, dc2⟩ := delete_for_challenges_spec env m r ps hps hty r.dns_challenge
      rcases dc2 with hok | herr
      · have hred := finalize_records_cons_ok env m r rest hok
        refine ⟨?_, ?_⟩
        · rw [hred, ih1, List.forall_mem_cons]
          constructor
          · intro h
            refine ⟨?_, h⟩
            rw [hps]
            simpa using dc1.mp hok
          · exact fun h => h.2
        · rw [hred]; exact ih2
      · have hred := finalize_records_cons_err env m r rest _ herr
        refine ⟨?_, Or.inr hred⟩
        rw [hred]
        constructor
        · intro h; cases h
        · intro hall
          have h1 := hall r (List.mem_cons_self r rest)
          rw [hps] at h1
          simp only [Option.getD_some] at h1
          rw [dc1.mpr h1] at herr
          cases herr

theorem complete_all_ok_of_all (env : AcmeEnv) (m : List (String × List DnsProvider))
    (auths : List AuthorizationRecord)
    (hc : ∀ r ∈ auths, (complete_dns_challenge env m r).1 = .ok ()) :
    (complete_all env m auths).1 = .ok () := by
  induction auths with
  | nil => simp [complete_all]
  | cons r rest ih =>
    have h1 := hc r (List.mem_cons_self r rest)
    have h2 := ih (fun q hq => hc q (List.mem_cons_of_mem r hq))
    simp [complete_all, h1, h2]

/-- Claim C2 (amended): for every record list whose hosts all have an
entry in the provider map with registered provider types (which holds for
the records an issuance builds), the failure-path cleanup never raises —
whatever subset of the delete calls fails — and its trace is exactly the
full sweep: one delete attempt for every challenge of every record at
every provider serving its host.  The success-path teardown, by contrast,
propagates deletion failures: if all completions succeed and some
attempted deletion fails, `finalize_authorizations` raises.  (For a
record whose host is missing from the map, cleanup itself raises — see
the counterexample.) -/
theorem cleanup_never_raises_finalize_propagates (env : AcmeEnv)
    (m : List (String × List DnsProvider)) (auths : List AuthorizationRecord)
    (hmap : ∀ r ∈ auths, (mapGet m r.host).isSome = true ∧
      ∀ p ∈ (mapGet m r.host).getD [], p.provider_type ∈ provider_types) :
    (cleanup_dns_challenges env m auths = (.ok (), cleanupSweep env m auths)) ∧
    (∀ (_hc : ∀ r ∈ auths, (complete_dns_challenge env m r).1 = .ok ())
       (_hf : ∃ r ∈ auths, ∃ ch ∈ r.dns_challenge, ∃ p ∈ (mapGet m r.host).getD [],
         finalize_delete_ok env r p ch = false),
      (finalize_authorizations env m auths).1 = .error .deleteFailed) := by
  refine ⟨cleanup_dns_challenges_sweep env m auths hmap, ?_⟩
  intro hc hf
  obtain ⟨fr_iff, fr_dichot⟩ := finalize_records_spec env m auths hmap
  have hnotall : ¬ (∀ r ∈ auths, ∀ ch ∈ r.dns_challenge, ∀ p ∈ (mapGet m r.host).getD [],
      finalize_delete_ok env r p ch = true) := by
    obtain ⟨r, hr, ch, hch, p, hp, hfail⟩ := hf
    intro hAll
    rw [hAll r hr ch hch p hp] at hfail
    cases hfail
  have hrec : (finalize_records env m auths).1 = .error .deleteFailed := by
    rcases fr_dichot with hok | herr
    · exact absurd (fr_iff.mp hok) hnotall
    · exact herr
  have hca := complete_all_ok_of_all env m auths hc
  simp [finalize_authorizations, hca, hrec]

theorem cleanup_never_raises_finalize_propagates_witness :
    (cleanup_dns_challenges envDeleteFails mPlain [recPlain]
      = (.ok (), cleanupSweep envDeleteFails mPlain [recPlain])) ∧
    (finalize_authorizations envDeleteFails mPlain [recPlain]).1 = .error .deleteFailed := by
  have h := cleanup_never_raises_finalize_propagates envDeleteFails mPlain [recPlain] (by decide)
  exact ⟨h.1, h.2 (by decide) (by decide)⟩

/-- Claim C2 counterexample: for a record whose host has no entry in the
provider map, cleanup raises (the `for` over `None` is a `TypeError`) and
attempts none of the record's deletions, even though no
`delete_txt_record` call failed — none was ever made. -/
theorem cleanup_counterexample_c2 :
    (cleanup_dns_challenges envAllOk [] [recNoMap]).1 = .error .typeErr ∧
    (cleanup_dns_challenges envAllOk [] [recNoMap]).2 = [] ∧
    recNoMap.dns_challenge ≠ [] := by decide

/-! ## Claim C4: delete arguments versus create arguments -/

theorem wait_changes_no_delete (env : AcmeEnv) (account : Option String) (cids : List String) :
    ∀ e ∈ (wait_changes env account cids).2, deletedNameValue e = none := by
  induction cids with
  | nil => intro e he; simp [wait_changes] at he
  | cons c rest ih =>
    intro e he
    cases h : env.wait_ok c account with
    | true =>
      simp only [wait_changes, h, if_true, List.mem_cons] at he
      rcases he with he | he
      · rw [he]; rfl
      · exact ih e he
    | false =>
      simp [wait_changes, h] at he
      rw [he]; rfl

theorem complete_one_provider_no_delete (env : AcmeEnv) (r : AuthorizationRecord)
    (p : DnsProvider) : ∀ e ∈ (complete_one_provider env r p).2, deletedNameValue e = none := by
  intro e he
  have hwait := wait_changes_no_delete env (dictGet p.credentials "account_id") r.change_id
  cases hg : get_dns_provider p.provider_type with
  | error e2 => simp [complete_one_provider, hg] at he
  | ok pl =>
    cases hw1 : (wait_changes env (dictGet p.credentials "account_id") r.change_id).1 with
    | error e2 =>
      simp only [complete_one_provider, hg, hw1] at he
      exact hwait e he
    | ok u =>
      cases hl : r.dns_challenge.getLast? with
      | none =>
        simp only [complete_one_provider, hg, hw1, hl] at he
        exact hwait e he
      | some ch =>
        cases hv : env.simple_verify ch r.host with
        | false =>
          simp only [complete_one_provider, hg, hw1, hl, hv, Bool.not_false, if_true] at he
          exact hwait e he
        | true =>
          simp only [complete_one_provider, hg, hw1, hl, hv, Bool.not_true, if_false] at he
          rcases List.mem_append.mp he with h1 | h1
          · exact hwait e h1
          · simp only [List.mem_singleton] at h1
            rw [h1]; rfl

theorem complete_providers_no_delete (env : AcmeEnv) (r : AuthorizationRecord) :
    ∀ ps : List DnsProvider, ∀ e ∈ (complete_providers env r ps).2,
      deletedNameValue e = none := by
  intro ps
  induction ps with
  | nil => intro e he; simp [complete_providers] at he
  | cons p rest ih =>
    intro e he
    cases hr : (complete_one_provider env r p).1 with
    | error e2 =>
      simp only [complete_providers, hr] at he
      exact complete_one_provider_no_delete env r p e he
    | ok u =>
      simp only [complete_providers, hr, List.mem_append] at he
      rcases he with h | h
      · exact complete_one_provider_no_delete env r p e h
      · exact ih e h

theorem complete_dns_challenge_no_delete (env : AcmeEnv)
    (m : List (String × List DnsProvider)) (r : AuthorizationRecord) :
    ∀ e ∈ (complete_dns_challenge env m r).2, deletedNameValue e = none := by
  intro e he
  cases ha : r.authz.head? with
  | none => simp [complete_dns_challenge, ha] at he
  | some a0 =>
    cases hm : mapGet m r.host with
    | none => simp [complete_dns_challenge, ha, hm] at he
    | some ps =>
      cases hemp : ps.isEmpty with
      | true => simp [complete_dns_challenge, ha, hm, hemp] at he
      | false =>
        simp only [complete_dns_challenge, ha, hm, hemp, Bool.false_eq_true, if_false] at he
        exact complete_providers_no_delete env r ps e he

theorem complete_all_no_delete (env : AcmeEnv) (m : List (String × List DnsProvider)) :
    ∀ auths : List AuthorizationRecord, ∀ e ∈ (complete_all env m auths).2,
      deletedNameValue e = none := by
  intro auths
  induction auths with
  | nil => intro e he; simp [complete_all] at he
  | cons r rest ih =>
    intro e he
    cases hr : (complete_dns_challenge env m r).1 with
    | error e2 =>
      simp only [complete_all, hr] at he
      exact complete_dns_challenge_no_delete env m r e he
    | ok u =>
      simp only [complete_all, hr, List.mem_append] at he
      rcases he with h | h
      · exact complete_dns_challenge_no_delete env m r e h
      · exact ih e h

theorem filterMap_deleted_nil (l : List Event) (h : ∀ e ∈ l, deletedNameValue e = none) :
    l.filterMap deletedNameValue = [] := by
  induction l with
  | nil => rfl
  | cons x xs ih =>
    have hx := h x (List.mem_cons_self x xs)
    simp [List.filterMap_cons, hx, ih (fun e he => h e (List.mem_cons_of_mem x he))]

theorem delete_for_providers_single (env : AcmeEnv) (r : AuthorizationRecord) (ch : Challenge)
    (p : DnsProvider) (hp : p.provider_type ∈ provider_types)
    (hdel : finalize_delete_ok env r p ch = true) :
    delete_for_providers env r ch [p] =
      (.ok (), [Event.deleteTxt r.change_id (dictGet p.credentials "account_id")
        (env.validation_domain_name ch
          (maybe_add_extension (strip_wildcard r.host).1 p.credentials))
        (env.validation ch)]) := by
  unfold finalize_delete_ok at hdel
  simp [delete_for_providers, get_dns_provider, hp, hdel]

theorem delete_for_challenges_single_trace (env : AcmeEnv)
    (m : List (String × List DnsProvider)) (r : AuthorizationRecord) (p : DnsProvider)
    (hmapr : mapGet m r.host = some [p])
    (hp : p.provider_type ∈ provider_types) :
    ∀ chs : List Challenge, (∀ ch ∈ chs, finalize_delete_ok env r p ch = true) →
      delete_for_challenges env m r chs = (.ok (), chs.map (fun ch =>
        Event.deleteTxt r.change_id (dictGet p.credentials "account_id")
          (env.validation_domain_name ch
            (maybe_add_extension (strip_wildcard r.host).1 p.credentials))
          (env.validation ch))) := by
  intro chs
  induction chs with
  | nil => intro _; simp [delete_for_challenges]
  | cons ch rest ih =>
    intro hdel
    have h1 := delete_for_providers_single env r ch p hp (hdel ch (List.mem_cons_self ch rest))
    have h2 := ih (fun c hc => hdel c (List.mem_cons_of_mem ch hc))
    simp [delete_for_challenges, hmapr, h1, h2]

theorem filterMap_deleted_map_delete (env : AcmeEnv) (cid : List String)
    (acct : Option String) (hostv : String) (chs : List Challenge) :
    (chs.map (fun ch => Event.deleteTxt cid acct (env.validation_domain_name ch hostv)
      (env.validation ch))).filterMap deletedNameValue
      = chs.map (fun ch => (env.validation_domain_name ch hostv, env.validation ch)) := by
  induction chs with
  | nil => rfl
  | cons c cs ih => simp [List.filterMap_cons, deletedNameValue, ih]

theorem filterMap_created_map_create (env : AcmeEnv) (acct : Option String)
    (hostv : String) (chs : List Challenge) :
    (chs.map (fun ch => Event.createTxt (env.validation_domain_name ch hostv)
      (env.validation ch) acct)).filterMap createdNameValue
      = chs.map (fun ch => (env.validation_domain_name ch hostv, env.validation ch)) := by
  induction chs with
  | nil => rfl
  | cons c cs ih => simp [List.filterMap_cons, createdNameValue, ih]

theorem maybe_add_extension_congr (host : String) (o1 o2 : List (String × String))
    (h : truthyGet o1 "acme_challenge_extension" = truthyGet o2 "acme_challenge_extension") :
    maybe_add_extension host o1 = maybe_add_extension host o2 := by
  unfold maybe_add_extension
  rw [h]

/-- Claim C4 counterexample: provider `pExt` declares the challenge
extension in its options dict only.  Creation derives the TXT name from
the extension-suffixed host, while the success-path deletion reads the
extension from the credentials dict and so derives a DIFFERENT name for
the very same challenge of the very same record. -/
theorem create_delete_name_mismatch_c4 :
    (start_dns_challenge envAllOk (some "11") "example.com" [authzEx] pExt.options).1
      = .ok ⟨"example.com", [authzEx], [cT], ["chg"]⟩ ∧
    ((start_dns_challenge envAllOk (some "11") "example.com" [authzEx]
        pExt.options).2.filterMap createdNameValue
      = [("_acme-challenge.example.com-acme", "val-t")]) ∧
    ((finalize_authorizations envAllOk mExt
        [⟨"example.com", [authzEx], [cT], ["chg"]⟩]).2.filterMap deletedNameValue
      = [("_acme-challenge.example.com", "val-t")]) := by decide

/-- Claim C4 (amended): the success-path deletion passes the same
name/value pair that creation passed for each challenge PROVIDED the
challenge-extension lookup agrees between the provider's options dict
(used at creation) and its credentials dict (used at deletion) — in
particular whenever neither dict configures `acme_challenge_extension`.
Without that agreement the names differ (see the counterexample). -/
theorem finalize_deletes_match_creates (env : AcmeEnv)
    (m : List (String × List DnsProvider)) (p : DnsProvider) (host : String)
    (acct : Option String) (authzs : List Authz) (r : AuthorizationRecord)
    (hmapr : mapGet m host = some [p])
    (hp : p.provider_type ∈ provider_types)
    (hext : truthyGet p.options "acme_challenge_extension"
          = truthyGet p.credentials "acme_challenge_extension")
    (hstart : (start_dns_challenge env acct host authzs p.options).1 = .ok r)
    (hcomplete : (complete_dns_challenge env m r).1 = .ok ())
    (hdel : ∀ ch ∈ r.dns_challenge, finalize_delete_ok env r p ch = true) :
    (finalize_authorizations env m [r]).2.filterMap deletedNameValue =
      (start_dns_challenge env acct host authzs p.options).2.filterMap createdNameValue := by
  have hne : (get_dns_challenges host authzs).isEmpty = false := by
    cases hni : (get_dns_challenges host authzs).isEmpty with
    | false => rfl
    | true => exfalso; simp [start_dns_challenge, hni] at hstart
  obtain ⟨rh, ra, rd, rc⟩ := r
  simp only [start_dns_challenge, hne, Bool.false_eq_true, if_false, Except.ok.injEq,
    AuthorizationRecord.mk.injEq] at hstart
  obtain ⟨h1, h2, h3, h4⟩ := hstart
  subst h1; subst h2; subst h3; subst h4
  set chs := get_dns_challenges host authzs with hchs
  set r0 : AuthorizationRecord := ⟨host, authzs, chs, chs.map (fun ch =>
    env.create_change_id
      (env.validation_domain_name ch (maybe_add_extension (strip_wildcard host).1 p.options))
      (env.validation ch) acct)⟩ with hr0
  have hcal : complete_all env m [r0] = (.ok (), (complete_dns_challenge env m r0).2) := by
    simp [complete_all, hcomplete]
  have hfr : finalize_records env m [r0] = (.ok (), r0.dns_challenge.map (fun ch =>
      Event.deleteTxt r0.change_id (dictGet p.credentials "account_id")
        (env.validation_domain_name ch
          (maybe_add_extension (strip_wildcard r0.host).1 p.credentials))
        (env.validation ch))) := by
    have hd := delete_for_challenges_single_trace env m r0 p hmapr hp r0.dns_challenge hdel
    simp [finalize_records, hd]
  have hfin : (finalize_authorizations env m [r0]).2
      = (complete_dns_challenge env m r0).2 ++ r0.dns_challenge.map (fun ch =>
          Event.deleteTxt r0.change_id (dictGet p.credentials "account_id")
            (env.validation_domain_name ch
              (maybe_add_extension (strip_wildcard r0.host).1 p.credentials))
            (env.validation ch)) := by
    simp [finalize_authorizations, hcal, hfr]
  rw [hfin, List.filterMap_append,
    filterMap_deleted_nil _ (complete_dns_challenge_no_delete env m r0),
    List.nil_append]
  have hst2 : (start_dns_challenge env acct host authzs p.options).2 =
      chs.map (fun ch =>
        Event.createTxt
          (env.validation_domain_name ch
            (maybe_add_extension (strip_wildcard host).1 p.options))
          (env.validation ch) acct) := by
    simp [start_dns_challenge, hne, hchs]
  rw [hst2, filterMap_created_map_create]
  have hr0chal : r0.dns_challenge = chs := rfl
  have hr0host : r0.host = host := rfl
  rw [hr0chal, hr0host, filterMap_deleted_map_delete]
  rw [maybe_add_extension_congr (strip_wildcard host).1 p.credentials p.options hext.symm]

theorem finalize_deletes_match_creates_witness :
    (finalize_authorizations envAllOk mPlain [recPlain]).2.filterMap deletedNameValue =
      (start_dns_challenge envAllOk (some "12345") "example.com" [authzEx]
        pPlain.options).2.filterMap createdNameValue :=
  finalize_deletes_match_creates envAllOk mPlain pPlain "example.com" (some "12345")
    [authzEx] recPlain (by decide) (by decide) (by decide) (by decide) (by decide) (by decide)

/-! ## Claim C3: the Domain Resolver selects exactly the longest matches -/

theorem foldl_max_init_le {A : Type} (f : A → Nat) :
    ∀ (l : List A) (a : Nat), a ≤ l.foldl (fun acc x => Nat.max acc (f x)) a := by
  intro l
  induction l with
  | nil => intro a; exact Nat.le_refl a
  | cons x xs ih =>
    intro a
    exact Nat.le_trans (Nat.le_max_left a (f x)) (ih (Nat.max a (f x)))

theorem le_foldl_max_of_mem {A : Type} (f : A → Nat) :
    ∀ (l : List A) (a : Nat) (x : A), x ∈ l →
      f x ≤ l.foldl (fun acc y => Nat.max acc (f y)) a := by
  intro l
  induction l with
  | nil => intro a x hx; cases hx
  | cons y ys ih =>
    intro a x hx
    rcases List.mem_cons.mp hx with h | h
    · subst h
      exact Nat.le_trans (Nat.le_max_right a (f x)) (foldl_max_init_le f ys (Nat.max a (f x)))
    · exact ih (Nat.max a (f y)) x h

theorem matched_length_le (domain : String) (l : List (DnsProvider × String))
    (pn : DnsProvider × String) (hpn : pn ∈ l) (hsm : suffix_match domain pn.2 = true) :
    pn.2.length ≤ matchedMax domain l :=
  le_foldl_max_of_mem (fun pn => pn.2.length) (l.filter (fun pn => suffix_match domain pn.2))
    0 pn (List.mem_filter.mpr ⟨hpn, hsm⟩)

theorem autodetect_foldl_provider (domain : String) (p : DnsProvider)
    (st : List DnsProvider × Nat) :
    (if p.domains.isEmpty then st
     else p.domains.foldl (fun st2 name => autodetectStep domain st2 (p, name)) st)
    = (p.domains.map (fun n => (p, n))).foldl (autodetectStep domain) st := by
  rw [List.foldl_map]
  cases hd : p.domains.isEmpty with
  | true =>
    have hnil : p.domains = [] := List.isEmpty_iff.mp hd
    simp [hd, hnil]
  | false => simp [hd]

theorem autodetect_eq_flat (all : List DnsProvider) (domain : String) :
    autodetect_dns_providers all domain
      = ((providerNamePairs all).foldl (autodetectStep domain) ([], 0)).1 := by
  suffices h : ∀ st, (all.foldl (fun st dns_provider => if dns_provider.domains.isEmpty then st
      else dns_provider.domains.foldl
        (fun st2 name => autodetectStep domain st2 (dns_provider, name)) st) st)
      = ((providerNamePairs all).foldl (autodetectStep domain) st) by
    unfold autodetect_dns_providers
    rw [h ([], 0)]
  induction all with
  | nil => intro st; simp [providerNamePairs]
  | cons p ps ih =>
    intro st
    simp only [List.foldl_cons, providerNamePairs, List.flatMap_cons, List.foldl_append]
    rw [autodetect_foldl_provider domain p st]
    exact ih _

theorem matchedMax_append (domain : String) (l : List (DnsProvider × String))
    (x : DnsProvider × String) :
    matchedMax domain (l ++ [x]) =
      if suffix_match domain x.2 then Nat.max (matchedMax domain l) x.2.length
      else matchedMax domain l := by
  unfold matchedMax
  rw [List.filter_append]
  cases hm : suffix_match domain x.2 with
  | true => simp [hm, List.foldl_append]
  | false => simp [hm]

theorem autodetect_flat_invariant (domain : String) (l : List (DnsProvider × String)) :
    l.foldl (autodetectStep domain) ([], 0) =
      ((l.filter (fun pn => suffix_match domain pn.2 &&
          pn.2.length == matchedMax domain l)).map Prod.fst,
       matchedMax domain l) := by
  induction l using List.reverseRecOn with
  | nil => simp [matchedMax]
  | append_singleton l x ih =>
    rw [List.foldl_append, List.foldl_cons, List.foldl_nil, ih]
    cases hm : suffix_match domain x.2 with
    | false =>
      simp only [matchedMax_append domain l x, hm, Bool.false_eq_true, if_false]
      rw [List.filter_append]
      have hx : (List.filter (fun pn => suffix_match domain pn.2 &&
          pn.2.length == matchedMax domain l) [x]) = [] := by
        simp [List.filter, hm]
      rw [hx, List.append_nil]
      simp [autodetectStep, hm]
    | true =>
      simp only [matchedMax_append domain l x, hm, if_true]
      rcases Nat.lt_trichotomy x.2.length (matchedMax domain l) with hlt | heq | hgt
      · -- shorter match: state unchanged, maximum unchanged, x filtered out
        have hmax : Nat.max (matchedMax domain l) x.2.length = matchedMax domain l :=
          Nat.max_eq_left (Nat.le_of_lt hlt)
        rw [hmax]
        rw [List.filter_append]
        have hne : (x.2.length == matchedMax domain l) = false := by
          simp [Nat.ne_of_lt hlt]
        have hx : (List.filter (fun pn => suffix_match domain pn.2 &&
            pn.2.length == matchedMax domain l) [x]) = [] := by
          simp [List.filter, hm, hne]
        rw [hx, List.append_nil]
        unfold autodetectStep
        rw [if_pos hm]
        rw [if_neg (Nat.not_lt.mpr (Nat.le_of_lt hlt))]
        rw [if_neg (Nat.ne_of_lt hlt)]
      · -- equal-length match: appended, maximum unchanged
        have hmax : Nat.max (matchedMax domain l) x.2.length = matchedMax domain l :=
          Nat.max_eq_left (Nat.le_of_eq heq)
        rw [hmax]
        rw [List.filter_append]
        have hx : (List.filter (fun pn => suffix_match domain pn.2 &&
            pn.2.length == matchedMax domain l) [x]) = [x] := by
          simp [List.filter, hm, heq]
        rw [hx, List.map_append]
        unfold autodetectStep
        rw [if_pos hm]
        rw [if_neg (Nat.not_lt.mpr (Nat.le_of_eq heq))]
        rw [if_pos heq]
        simp
      · -- strictly longer match: selection resets to x alone
        have hmax : Nat.max (matchedMax domain l) x.2.length = x.2.length :=
          Nat.max_eq_right (Nat.le_of_lt hgt)
        rw [hmax]
        rw [List.filter_append]
        have hl : (List.filter (fun pn => suffix_match domain pn.2 &&
            pn.2.length == x.2.length) l) = [] := by
          rw [List.filter_eq_nil_iff]
          intro pn hpn
          intro hcontra
          rw [Bool.and_eq_true] at hcontra
          have hle := matched_length_le domain l pn hpn hcontra.1
          have heqlen : pn.2.length = x.2.length := by simpa using hcontra.2
          omega
        have hx : (List.filter (fun pn => suffix_match domain pn.2 &&
            pn.2.length == x.2.length) [x]) = [x] := by
          simp [List.filter, hm]
        rw [hl, hx, List.nil_append]
        unfold autodetectStep
        rw [if_pos hm]
        rw [if_pos (by simpa using hgt)]
        rfl

theorem mem_providerNamePairs (all : List DnsProvider) (p : DnsProvider) (n : String) :
    (p, n) ∈ providerNamePairs all ↔ p ∈ all ∧ n ∈ p.domains := by
  unfold providerNamePairs
  simp only [List.mem_flatMap, List.mem_map, Prod.mk.injEq]
  constructor
  · rintro ⟨q, hq, m, hm, hqp, hmn⟩
    subst hqp; subst hmn
    exact ⟨hq, hm⟩
  · rintro ⟨hp, hn⟩
    exact ⟨p, hp, n, hn, rfl, rfl⟩

/-- Claim C3: the Domain Resolver selects exactly the providers achieving
the maximum matching suffix length: a provider is in the result iff it is
configured and owns a suffix that matches the domain (equal to it, or the
domain ends with dot-plus-suffix) whose length is the maximum matched
length; providers with only shorter matches, or no matches, or no
configured suffixes, are absent, and with no match at all the result is
empty. -/
theorem autodetect_dns_providers_spec (all : List DnsProvider) (domain : String)
    (p : DnsProvider) :
    p ∈ autodetect_dns_providers all domain ↔
      (p ∈ all ∧ ∃ name, name ∈ p.domains ∧ suffix_match domain name = true ∧
        name.length = maxMatchLength all domain) := by
  rw [autodetect_eq_flat, autodetect_flat_invariant]
  unfold maxMatchLength
  simp only [List.mem_map, List.mem_filter]
  constructor
  · rintro ⟨pn, ⟨hpn, hpred⟩, hfst⟩
    obtain ⟨p1, n⟩ := pn
    rw [Bool.and_eq_true] at hpred
    dsimp only at hfst hpred
    subst hfst
    obtain ⟨hall, hdom⟩ := (mem_providerNamePairs all p1 n).mp hpn
    exact ⟨hall, n, hdom, hpred.1, by simpa using hpred.2⟩
  · rintro ⟨hp, name, hname, hsm, hlen⟩
    refine ⟨(p, name), ⟨(mem_providerNamePairs all p name).mpr ⟨hp, hname⟩, ?_⟩, rfl⟩
    rw [Bool.and_eq_true]
    exact ⟨hsm, by simp [hlen, maxMatchLength]⟩
